import Mathlib

/-!
# Customer address handlers and the disclaimer catalog

A shallow embedding of `pkg/customers/address.go` (the address-type conversion and the
three HTTP handlers for a customer's addresses), together with the repository
operations the handlers and the disclaimer administration rest on, whose bodies are
outside the files at hand and are modelled from the specification.

Conventions of the embedding:

* A Go `error` is represented by its message, which is what `moovhttp.Problem`
  sends to the client; `nil` is `none`.
* A handler is a function from the already extracted path variables, the decoded
  body and the repository state to an `Outcome`: what the handler did to the
  response writer, the ordered log of the calls it made, and the repository state
  it leaves behind.
* `CustomerRepository` is the Go interface; the handlers are generic in it.
-/

namespace Customers

/-! ## Errors -/

/-- Go `error` value, identified by the message returned by `Error()`. -/
structure error where
  msg : String
  deriving DecidableEq, Repr

/-! ## Address types (`address.go` lines 17-49) -/

/-- Go `type AddressType int`. -/
abbrev AddressType := Int

/-- Constant `AddressType_Primary AddressType = 1`. -/
def AddressType_Primary : AddressType := 1

/-- Constant `AddressType_Secondary AddressType = 2`. -/
def AddressType_Secondary : AddressType := 2

/-- Method `func (a AddressType) Common() string`: a `switch` with two cases and
the empty string as fall-through. -/
def AddressType.Common (a : AddressType) : String :=
  if a = AddressType_Primary then "primary"
  else if a = AddressType_Secondary then "secondary"
  else ""

/-- Function `addressTypeToModel(v string) (AddressType, error)`: a lookup in a
two-entry map; a miss returns `0` and `fmt.Errorf("unknown addresss type: %s", v)`. -/
def addressTypeToModel (v : String) : AddressType × Option error :=
  let m : List (String × AddressType) :=
    [("primary", AddressType_Primary), ("secondary", AddressType_Secondary)]
  match m.lookup v with
  | none => (0, some ⟨"unknown addresss type: " ++ v⟩)
  | some addrType => (addrType, none)

/-- Package variable `ErrAddressTypeDuplicate`. -/
def ErrAddressTypeDuplicate : error :=
  ⟨"customer already has an address with type 'primary'"⟩

/-! ## Data model -/

/-- Request/validation struct `address` of package `customers`; the fields are those
the conversion loop of `createCustomerAddress` assigns. The Go field `Type` is
written `Type_`, `Type` being reserved. -/
structure address where
  Type_ : String
  Address1 : String
  Address2 : String
  City : String
  State : String
  PostalCode : String
  Country : String
  deriving DecidableEq, Repr

/-- Struct `updateCustomerAddressRequest`: the inlined `address` plus `Validated`. -/
structure updateCustomerAddressRequest extends address where
  Validated : Bool
  deriving DecidableEq, Repr

/-- Stored address as returned inside a customer (`model_address.go`); `Type` is a
string, as `strings.ToLower(addr.Type)` and `addr.Type == "primary"` require. -/
structure Address where
  AddressID : String
  Type_ : String
  OwnerType : String
  Address1 : String
  Address2 : String
  City : String
  State : String
  PostalCode : String
  Country : String
  Validated : Bool
  deriving DecidableEq, Repr

/-- Customer as returned by `repo.GetCustomer`; only the fields the handlers read. -/
structure Customer where
  CustomerID : String
  Addresses : List Address
  deriving DecidableEq, Repr

/-- Interface `CustomerRepository`, restricted to the four methods the address
handlers call, over an explicit storage state `σ`. `GetCustomer` is a read: it
returns the pair `(*Customer, error)` with `nil` as `none`. Each write returns the
storage it leaves and its `error`. -/
structure CustomerRepository (σ : Type) where
  GetCustomer : σ → String → String → Option Customer × Option error
  addCustomerAddress : σ → String → address → σ × Option error
  updateCustomerAddress : σ → String → String → updateCustomerAddressRequest → σ × Option error
  deleteCustomerAddress : σ → String → String → σ × Option error

/-! ## Observable behaviour of a handler -/

/-- What a handler invocation does to the response writer.
* `returned`: the handler returns without writing (a `route` helper that produced an
  empty identifier has already reported the problem);
* `Problem err`: `moovhttp.Problem(w, err)`;
* `WriteHeader code`: `w.WriteHeader(code)`;
* `respondWithCustomer`: the handler ends by calling
  `respondWithCustomer(logger, w, customerID, organization, requestID, repo)`;
* `nilDereference`: the goroutine panics on a field access through a nil pointer,
  so the handler writes no response. -/
inductive Reply where
  | returned
  | Problem (err : error)
  | WriteHeader (code : Nat)
  | respondWithCustomer (customerID organization requestID : String)
  | nilDereference
  deriving DecidableEq, Repr

/-- Calls made by the body of a handler, in program order. What
`respondWithCustomer` does with the repository it is handed lies behind the reply of
that name and is not part of this log. -/
inductive Event where
  | GetCustomer (customerID organization : String)
  | validateAddresses (addrs : List address)
  | addCustomerAddress (customerID : String) (reqAddr : address)
  | updateCustomerAddress (customerID addressId : String) (req : updateCustomerAddressRequest)
  | deleteCustomerAddress (customerID addressId : String)
  deriving DecidableEq, Repr

/-- Predicate: the event is one of the three repository writes. -/
def Event.isWrite : Event → Bool
  | .addCustomerAddress _ _ => true
  | .updateCustomerAddress _ _ _ => true
  | .deleteCustomerAddress _ _ => true
  | _ => false

/-- Result of running a handler: reply, call log, and storage afterwards. -/
structure Outcome (σ : Type) where
  reply : Reply
  events : List Event
  st : σ

/-! ## `createCustomerAddress` (`address.go` lines 63-117) -/

/-- The conversion loop of lines 92-103: starting from a nil slice, every stored
address is appended as an `address` whose `Type` is lower-cased and whose other six
fields are copied. `ToLower` is `strings.ToLower`. -/
def convertAddrs (ToLower : String → String) (stored : List Address) : List address :=
  stored.foldl
    (fun addrs addr => addrs ++ [{
      Type_ := ToLower addr.Type_
      Address1 := addr.Address1
      Address2 := addr.Address2
      City := addr.City
      State := addr.State
      PostalCode := addr.PostalCode
      Country := addr.Country }])
    []

/-- Handler `createCustomerAddress`. `customerID`, `organization` are the results of
`route.GetCustomerID` and `route.GetOrganization`, `body` the result of decoding the
JSON body into an `address`; `validateAddresses` is the package function of that
name, whose body is defined outside `address.go`. -/
def createCustomerAddress {σ : Type} (ToLower : String → String)
    (validateAddresses : List address → Option error) (repo : CustomerRepository σ) (s : σ)
    (customerID requestID organization : String) (body : Except error address) : Outcome σ :=
  if customerID = "" then ⟨.returned, [], s⟩
  else if organization = "" then ⟨.returned, [], s⟩
  else
    match body with
    | .error err => ⟨.Problem err, [], s⟩
    | .ok reqAddr =>
      match repo.GetCustomer s customerID organization with
      | (_, some err) => ⟨.Problem err, [.GetCustomer customerID organization], s⟩
      | (none, none) => ⟨.WriteHeader 404, [.GetCustomer customerID organization], s⟩
      | (some cust, none) =>
        let addrs := convertAddrs ToLower cust.Addresses
        match validateAddresses (addrs ++ [reqAddr]) with
        | some err =>
          ⟨.Problem err,
            [.GetCustomer customerID organization, .validateAddresses (addrs ++ [reqAddr])], s⟩
        | none =>
          match repo.addCustomerAddress s customerID reqAddr with
          | (s1, some err) =>
            ⟨.Problem err,
              [.GetCustomer customerID organization, .validateAddresses (addrs ++ [reqAddr]),
                .addCustomerAddress customerID reqAddr], s1⟩
          | (s1, none) =>
            ⟨.respondWithCustomer customerID organization requestID,
              [.GetCustomer customerID organization, .validateAddresses (addrs ++ [reqAddr]),
                .addCustomerAddress customerID reqAddr], s1⟩

/-! ## `updateCustomerAddress` (`address.go` lines 119-170) -/

/-- The loop of lines 152-157: scanning the customer's addresses in order, stop with
a hit at the first one whose type is exactly `"primary"` and whose id differs from the
one being updated. -/
def primaryConflict (addressId : String) : List Address → Bool
  | [] => false
  | addr :: rest =>
    if addr.Type_ = "primary" ∧ addr.AddressID ≠ addressId then true
    else primaryConflict addressId rest

/-- Lines 160-168 of `updateCustomerAddress`: the repository write and the final
response, after `before` earlier calls. -/
def updateCustomerAddressWrite {σ : Type} (repo : CustomerRepository σ) (s : σ)
    (customerID addressId requestID organization : String)
    (req : updateCustomerAddressRequest) (before : List Event) : Outcome σ :=
  match repo.updateCustomerAddress s customerID addressId req with
  | (s1, some err) =>
    ⟨.Problem err, before ++ [.updateCustomerAddress customerID addressId req], s1⟩
  | (s1, none) =>
    ⟨.respondWithCustomer customerID organization requestID,
      before ++ [.updateCustomerAddress customerID addressId req], s1⟩

/-- Handler `updateCustomerAddress`. `addressId` is the result of `getAddressId`,
`body` the result of decoding the JSON body into the local variable `req`. `validate`
is the method `req.validate`, whose body is defined outside `address.go`: it is called
on the addressable variable `req`, so it may rewrite the request, and it is given here
as the function from the decoded request to the request it leaves in `req` and its
`error`. Everything after line 140 (the type test of line 145 and the repository write
of line 160) reads the request as `validate` left it. When `GetCustomer` returns
`(nil, nil)` the loop header `cust.Addresses` dereferences the nil customer. -/
def updateCustomerAddress {σ : Type}
    (validate : updateCustomerAddressRequest → updateCustomerAddressRequest × Option error)
    (repo : CustomerRepository σ) (s : σ)
    (customerID addressId requestID organization : String)
    (body : Except error updateCustomerAddressRequest) : Outcome σ :=
  if customerID = "" ∨ addressId = "" then ⟨.returned, [], s⟩
  else if organization = "" then ⟨.returned, [], s⟩
  else
    match body with
    | .error err => ⟨.Problem err, [], s⟩
    | .ok decoded =>
      match validate decoded with
      | (_, some err) => ⟨.Problem err, [], s⟩
      | (req, none) =>
        if req.Type_ = AddressType.Common AddressType_Primary then
          match repo.GetCustomer s customerID organization with
          | (_, some err) => ⟨.Problem err, [.GetCustomer customerID organization], s⟩
          | (none, none) => ⟨.nilDereference, [.GetCustomer customerID organization], s⟩
          | (some cust, none) =>
            if primaryConflict addressId cust.Addresses then
              ⟨.Problem ErrAddressTypeDuplicate, [.GetCustomer customerID organization], s⟩
            else
              updateCustomerAddressWrite repo s customerID addressId requestID organization req
                [.GetCustomer customerID organization]
        else
          updateCustomerAddressWrite repo s customerID addressId requestID organization req []

/-! ## `deleteCustomerAddress` (`address.go` lines 172-192) -/

/-- Handler `deleteCustomerAddress`: one repository call, then `204 No Content` or
the repository error. -/
def deleteCustomerAddress {σ : Type} (repo : CustomerRepository σ) (s : σ)
    (customerID addressId : String) : Outcome σ :=
  if customerID = "" ∨ addressId = "" then ⟨.returned, [], s⟩
  else
    match repo.deleteCustomerAddress s customerID addressId with
    | (s1, some err) => ⟨.Problem err, [.deleteCustomerAddress customerID addressId], s1⟩
    | (s1, none) => ⟨.WriteHeader 204, [.deleteCustomerAddress customerID addressId], s1⟩

/-! ## Concrete collaborators used to run the handlers on examples -/

/-- ASCII lower-casing: on strings of ASCII characters it computes what
`strings.ToLower` computes. Used only to instantiate the handlers at concrete inputs. -/
def asciiToLower (v : String) : String :=
  String.mk (v.data.map Char.toLower)

/-- A repository over a write counter: `GetCustomer` always answers `get`, and every
write succeeds and increments the counter. -/
def countingRepo (get : Option Customer × Option error) : CustomerRepository Nat where
  GetCustomer := fun _ _ _ => get
  addCustomerAddress := fun n _ _ => (n + 1, none)
  updateCustomerAddress := fun n _ _ _ => (n + 1, none)
  deleteCustomerAddress := fun n _ _ => (n + 1, none)

/-- Number of entries of a candidate set whose type is exactly `"primary"`. -/
def countPrimary (addrs : List address) : Nat :=
  addrs.countP (fun a => a.Type_ = "primary")

/-- Modelled from the spec: `validateAddresses`, whose body is not in `address.go`.
Spec §4.1: it returns `DuplicatePrimaryAddress` when two or more entries have
`type = primary`, `MissingRequiredField` when a required field (`address1`, `city`,
`state`, `postalCode`, `country`) of an entry is empty, and success otherwise. -/
def specValidateAddresses (addrs : List address) : Option error :=
  if 2 ≤ countPrimary addrs then some ⟨"DuplicatePrimaryAddress"⟩
  else if addrs.any (fun a =>
      a.Address1 = "" ∨ a.City = "" ∨ a.State = "" ∨ a.PostalCode = "" ∨ a.Country = "")
    then some ⟨"MissingRequiredField"⟩
  else none

/-- Modelled from the spec: `req.validate`, whose body is not in `address.go`.
Spec §7 lists the client-input errors: unknown address type and missing required
field (§4.1: `address1`, `city`, `state`, `postalCode`, `country`). The spec gives it
no effect on the request, which is returned as received. -/
def specValidate (req : updateCustomerAddressRequest) :
    updateCustomerAddressRequest × Option error :=
  match addressTypeToModel req.Type_ with
  | (_, some err) => (req, some err)
  | (_, none) =>
    if req.Address1 = "" ∨ req.City = "" ∨ req.State = "" ∨ req.PostalCode = "" ∨
        req.Country = "" then (req, some ⟨"MissingRequiredField"⟩)
    else (req, none)

/-- A `validate` that rewrites its receiver: it lower-cases `req.Type` in place and
then checks the request as `specValidate` does. It exercises the handler on a request
whose type changes between decoding and line 145. -/
def lowerCasingValidate (req : updateCustomerAddressRequest) :
    updateCustomerAddressRequest × Option error :=
  specValidate { req with Type_ := asciiToLower req.Type_ }

/-- A stored address with the given id and type at 1 Main St. -/
def sampleAddress (addressID type : String) : Address :=
  { AddressID := addressID, Type_ := type, OwnerType := "", Address1 := "1 Main St",
    Address2 := "", City := "X", State := "NY", PostalCode := "10001", Country := "US",
    Validated := false }

/-- A request address of the given type at 2 Side St. -/
def sampleRequest (type : String) : address :=
  { Type_ := type, Address1 := "2 Side St", Address2 := "", City := "X", State := "NY",
    PostalCode := "10001", Country := "US" }

/-- An update request of the given type at 2 Side St. -/
def sampleUpdate (type : String) : updateCustomerAddressRequest :=
  { toaddress := sampleRequest type, Validated := false }

/-! ## The repository of the specification -/

/-- Stored data of one customer: the organization it is scoped to and its addresses
in insertion order. -/
structure CustomerRecord where
  organization : String
  addresses : List Address

/-- Storage: the customers keyed by customerID. -/
abbrev Store := String → Option CustomerRecord

/-- Replace the record stored under `customerID`. -/
def Store.put (st : Store) (customerID : String) (r : CustomerRecord) : Store :=
  fun k => if k = customerID then some r else st k

/-- The stored address created from a request address under a generated id. -/
def newAddress (addressID : String) (a : address) : Address :=
  { AddressID := addressID, Type_ := a.Type_, OwnerType := "", Address1 := a.Address1,
    Address2 := a.Address2, City := a.City, State := a.State, PostalCode := a.PostalCode,
    Country := a.Country, Validated := false }

/-- The stored address after an update: type and address fields as requested, id and
the externally set `validated` flag kept. -/
def applyUpdate (req : updateCustomerAddressRequest) (a : Address) : Address :=
  { a with Type_ := req.Type_, Address1 := req.Address1, Address2 := req.Address2,
           City := req.City, State := req.State, PostalCode := req.PostalCode,
           Country := req.Country }

/-- Modelled from the spec: the storage side of `CustomerRepository`, whose
implementation is not in `address.go`. Spec §3, §4.2 and §6:
* `getCustomer(customerID, organization) -> Customer|NotFound`;
* `addAddress` does not re-validate, refuses to write with `CustomerNotFound` if the
  customer does not exist, and otherwise appends the address (insertion order) under
  an `addressID` generated on insert (`genID`, from the addresses already stored);
* `updateAddress` fails with `AddressNotFound` if `addressID` does not belong to
  `customerID`, and otherwise sets type and fields of that address, the id being
  immutable;
* `deleteAddress` is idempotent: removal is permanent and deleting a nonexistent
  address is not an error. -/
def memRepo (genID : List Address → String) : CustomerRepository Store where
  GetCustomer := fun st customerID organization =>
    match st customerID with
    | none => (none, none)
    | some r =>
      if r.organization = organization then (some ⟨customerID, r.addresses⟩, none)
      else (none, none)
  addCustomerAddress := fun st customerID a =>
    match st customerID with
    | none => (st, some ⟨"CustomerNotFound"⟩)
    | some r =>
      (st.put customerID
        { r with addresses := r.addresses ++ [newAddress (genID r.addresses) a] }, none)
  updateCustomerAddress := fun st customerID addressId req =>
    match st customerID with
    | none => (st, some ⟨"AddressNotFound"⟩)
    | some r =>
      if r.addresses.any (fun a => a.AddressID = addressId) then
        (st.put customerID
          { r with addresses :=
              r.addresses.map (fun a => if a.AddressID = addressId then applyUpdate req a else a) },
          none)
      else (st, some ⟨"AddressNotFound"⟩)
  deleteCustomerAddress := fun st customerID addressId =>
    match st customerID with
    | none => (st, none)
    | some r =>
      (st.put customerID
        { r with addresses := r.addresses.filter (fun a => a.AddressID ≠ addressId) }, none)

/-- An id generator for examples: a run of `x` longer than all stored ids together. -/
def freshID (stored : List Address) : String :=
  String.mk (List.replicate ((stored.map (fun a => a.AddressID.length)).sum + 1) 'x')

/-- The addresses stored for a customer (none when the customer is unknown). -/
def Store.addressesOf (st : Store) (customerID : String) : List Address :=
  match st customerID with
  | none => []
  | some r => r.addresses

/-- Number of stored addresses of a customer whose type is exactly `"primary"`. -/
def Store.primaryCount (st : Store) (customerID : String) : Nat :=
  (st.addressesOf customerID).countP (fun a => a.Type_ = "primary")

/-- A create or update request as it reaches the handlers. -/
inductive AddressRequest where
  | create (customerID requestID organization : String) (body : Except error address)
  | update (customerID addressId requestID organization : String)
      (body : Except error updateCustomerAddressRequest)

/-- Run the handler a request is routed to, against the repository of the
specification. -/
def serve (ToLower : String → String) (validateAddresses : List address → Option error)
    (validate : updateCustomerAddressRequest → updateCustomerAddressRequest × Option error) (genID : List Address → String)
    (st : Store) : AddressRequest → Outcome Store
  | .create customerID requestID organization body =>
    createCustomerAddress ToLower validateAddresses (memRepo genID) st
      customerID requestID organization body
  | .update customerID addressId requestID organization body =>
    updateCustomerAddress validate (memRepo genID) st
      customerID addressId requestID organization body

/-- Serve a finite sequence of requests one after the other. -/
def serveAll (ToLower : String → String) (validateAddresses : List address → Option error)
    (validate : updateCustomerAddressRequest → updateCustomerAddressRequest × Option error) (genID : List Address → String)
    (st : Store) (reqs : List AddressRequest) : Store :=
  reqs.foldl (fun st req => (serve ToLower validateAddresses validate genID st req).st) st

/-- A store holding the single customer `c1` of organization `org`. -/
def sampleStore (addresses : List Address) : Store :=
  fun k => if k = "c1" then some ⟨"org", addresses⟩ else none

/-! ## The disclaimer catalog of the specification -/

/-- A catalog entry; the fields are those `disclaimers_test.go` assigns to
`client.Disclaimer`. -/
structure Disclaimer where
  ID : String
  Text : String
  DocumentID : String
  deriving DecidableEq, Repr

/-- An acceptance row (spec §3): customer, disclaimer and time of acceptance. -/
structure DisclaimerAcceptance where
  customerID : String
  disclaimerID : String
  acceptedAt : Nat
  deriving DecidableEq, Repr

/-- Disclaimer storage (spec §6): the catalog in insertion order and the acceptance
rows. -/
structure DisclaimerStore where
  catalog : List Disclaimer
  acceptances : List DisclaimerAcceptance
  deriving DecidableEq, Repr

/-- Modelled from the spec: `getCustomerDisclaimers`, whose implementation
(`sqlDisclaimerRepository`) is not among the source files. Spec §4.3: the full current
catalog joined with this customer's acceptance status, every entry of a customer
without acceptances being marked unaccepted. -/
def getCustomerDisclaimers (st : DisclaimerStore) (customerID : String) :
    List (Disclaimer × Bool) :=
  st.catalog.map (fun d =>
    (d, st.acceptances.any (fun a => a.customerID = customerID ∧ a.disclaimerID = d.ID)))

/-- Modelled from the spec: `insertDisclaimer(text, documentID) -> (Disclaimer, error)`,
whose implementation (`sqlDisclaimerRepository` and the administrative create
operation) is not among the source files. Spec §4.3: it fails with `ValidationError`
if `text` is empty or `documentID` is empty, and with `DocumentNotFound` if the
referenced document does not exist or is marked deleted (`documentExists`, the
external Document collaborator of §6); otherwise it adds to the catalog a disclaimer
with a freshly generated id (`newID`) and the given text. Returns the result and the
storage after the call. -/
def insertDisclaimer (documentExists : String → Bool) (newID : String) (st : DisclaimerStore)
    (text documentID : String) : (Option Disclaimer × Option error) × DisclaimerStore :=
  if text = "" ∨ documentID = "" then ((none, some ⟨"ValidationError"⟩), st)
  else if documentExists documentID = false then ((none, some ⟨"DocumentNotFound"⟩), st)
  else
    ((some ⟨newID, text, documentID⟩, none),
      { st with catalog := st.catalog ++ [⟨newID, text, documentID⟩] })

/-! ## Theorems -/

/-! ### Auxiliary facts about the two loops -/

/-- The scan of `updateCustomerAddress` hits exactly when some address other than the
edited one has type `"primary"`. -/
theorem primaryConflict_iff (addressId : String) (l : List Address) :
    primaryConflict addressId l = true ↔
      ∃ a ∈ l, a.Type_ = "primary" ∧ a.AddressID ≠ addressId := by
  induction l with
  | nil => simp [primaryConflict]
  | cons x xs ih =>
    unfold primaryConflict
    by_cases hx : x.Type_ = "primary" ∧ x.AddressID ≠ addressId
    · rw [if_pos hx]
      exact ⟨fun _ => ⟨x, List.mem_cons_self _ _, hx.1, hx.2⟩, fun _ => rfl⟩
    · rw [if_neg hx, ih]
      constructor
      · rintro ⟨a, ha, h⟩
        exact ⟨a, List.mem_cons_of_mem _ ha, h⟩
      · rintro ⟨a, ha, h⟩
        rcases List.mem_cons.mp ha with rfl | ha
        · exact absurd h hx
        · exact ⟨a, ha, h⟩

/-- The append loop of `createCustomerAddress`, started from any slice, appends the
converted addresses in stored order. -/
theorem convertAddrs_foldl (ToLower : String → String) (l : List Address) (acc : List address) :
    l.foldl
      (fun addrs addr => addrs ++ [({
        Type_ := ToLower addr.Type_
        Address1 := addr.Address1
        Address2 := addr.Address2
        City := addr.City
        State := addr.State
        PostalCode := addr.PostalCode
        Country := addr.Country } : address)]) acc
    = acc ++ l.map (fun addr => ({
        Type_ := ToLower addr.Type_
        Address1 := addr.Address1
        Address2 := addr.Address2
        City := addr.City
        State := addr.State
        PostalCode := addr.PostalCode
        Country := addr.Country } : address)) := by
  induction l generalizing acc with
  | nil => simp
  | cons x xs ih => simp [List.foldl_cons, ih]

/-- The conversion loop is a map over the stored addresses. -/
theorem convertAddrs_eq_map (ToLower : String → String) (l : List Address) :
    convertAddrs ToLower l = l.map (fun addr => ({
        Type_ := ToLower addr.Type_
        Address1 := addr.Address1
        Address2 := addr.Address2
        City := addr.City
        State := addr.State
        PostalCode := addr.PostalCode
        Country := addr.Country } : address)) := by
  unfold convertAddrs
  rw [convertAddrs_foldl]
  simp


/-- C4: `addressTypeToModel` is the exact inverse of `AddressType.Common` on the two
enumerated types. For every string `v` it succeeds exactly when `v` is `"primary"` or
`"secondary"`, returning `AddressType_Primary` resp. `AddressType_Secondary`; converting
the `Common` name of either defined type gives the type back; whenever it succeeds,
`Common` of the result is `v` again; every other string gives the zero type and the
unknown-address-type error, and this includes the empty string that `Common` returns
for every undefined type. -/
theorem addressTypeToModel_inverse_Common (v : String) :
    ((addressTypeToModel v).2 = none ↔ v = "primary" ∨ v = "secondary") ∧
    (v = "primary" → addressTypeToModel v = (AddressType_Primary, none)) ∧
    (v = "secondary" → addressTypeToModel v = (AddressType_Secondary, none)) ∧
    addressTypeToModel (AddressType.Common AddressType_Primary) = (AddressType_Primary, none) ∧
    addressTypeToModel (AddressType.Common AddressType_Secondary)
      = (AddressType_Secondary, none) ∧
    ((addressTypeToModel v).2 = none → AddressType.Common (addressTypeToModel v).1 = v) ∧
    (v ≠ "primary" → v ≠ "secondary" →
      addressTypeToModel v = (0, some ⟨"unknown addresss type: " ++ v⟩)) ∧
    (∀ t : AddressType, t ≠ AddressType_Primary → t ≠ AddressType_Secondary →
      AddressType.Common t = "" ∧
      addressTypeToModel (AddressType.Common t) = (0, some ⟨"unknown addresss type: "⟩)) := by
  have hp : addressTypeToModel "primary" = (AddressType_Primary, none) := by decide
  have hs : addressTypeToModel "secondary" = (AddressType_Secondary, none) := by decide
  have hother : v ≠ "primary" → v ≠ "secondary" →
      addressTypeToModel v = (0, some ⟨"unknown addresss type: " ++ v⟩) := by
    intro h1 h2
    have b1 : (v == "primary") = false := by simp [h1]
    have b2 : (v == "secondary") = false := by simp [h2]
    simp only [addressTypeToModel, List.lookup, b1, b2]
  refine ⟨?_, ?_, ?_, ?_, ?_, ?_, hother, ?_⟩
  · constructor
    · intro h
      by_contra hne
      push_neg at hne
      rw [hother hne.1 hne.2] at h
      simp at h
    · rintro (rfl | rfl)
      · rw [hp]
      · rw [hs]
  · rintro rfl; exact hp
  · rintro rfl; exact hs
  · decide
  · decide
  · intro h
    by_cases h1 : v = "primary"
    · subst h1; decide
    · by_cases h2 : v = "secondary"
      · subst h2; decide
      · rw [hother h1 h2] at h
        simp at h
  · intro t h1 h2
    have hc : AddressType.Common t = "" := by
      simp [AddressType.Common, h1, h2]
    rw [hc]
    exact ⟨rfl, by decide⟩

/-- Witness for C4 at the strings `"primary"` (accepted) and `"Primary"` (rejected: the
lookup is case-sensitive). -/
theorem addressTypeToModel_inverse_Common_witness :
    addressTypeToModel "primary" = (AddressType_Primary, none) ∧
    addressTypeToModel "Primary" = (0, some ⟨"unknown addresss type: Primary"⟩) :=
  ⟨(addressTypeToModel_inverse_Common "primary").2.1 rfl,
   (addressTypeToModel_inverse_Common "Primary").2.2.2.2.2.2.1 (by decide) (by decide)⟩

/-- The run of `updateCustomerAddress` that ends in the duplicate-primary rejection:
the lookup is the only call and the storage is returned as it was. -/
theorem updateCustomerAddress_conflict_run {σ : Type}
    (validate : updateCustomerAddressRequest → updateCustomerAddressRequest × Option error)
    (repo : CustomerRepository σ)
    (s : σ) (customerID addressId requestID organization : String)
    (decoded req : updateCustomerAddressRequest) (cust : Customer)
    (hc : customerID ≠ "") (ha : addressId ≠ "") (ho : organization ≠ "")
    (hvalid : validate decoded = (req, none)) (htype : req.Type_ = "primary")
    (hget : repo.GetCustomer s customerID organization = (some cust, none))
    (hdup : ∃ a ∈ cust.Addresses, a.Type_ = "primary" ∧ a.AddressID ≠ addressId) :
    updateCustomerAddress validate repo s customerID addressId requestID organization
        (.ok decoded)
      = ⟨.Problem ErrAddressTypeDuplicate, [.GetCustomer customerID organization], s⟩ := by
  have hconf : primaryConflict addressId cust.Addresses = true :=
    (primaryConflict_iff addressId cust.Addresses).mpr hdup
  have hcommon : req.Type_ = AddressType.Common AddressType_Primary := by
    rw [htype]; rfl
  unfold updateCustomerAddress
  rw [if_neg (by simp [hc, ha]), if_neg ho]
  simp only [hvalid, hget, if_pos hcommon, hconf, if_true]

/-- The run of `createCustomerAddress` that ends in a validation failure: lookup and
validation are the only calls and the storage is returned as it was. -/
theorem createCustomerAddress_invalid_run {σ : Type} (ToLower : String → String)
    (validateAddresses : List address → Option error) (repo : CustomerRepository σ) (s : σ)
    (customerID requestID organization : String) (reqAddr : address) (cust : Customer)
    (err : error) (hc : customerID ≠ "") (ho : organization ≠ "")
    (hget : repo.GetCustomer s customerID organization = (some cust, none))
    (hv : validateAddresses (convertAddrs ToLower cust.Addresses ++ [reqAddr]) = some err) :
    createCustomerAddress ToLower validateAddresses repo s customerID requestID organization
        (.ok reqAddr)
      = ⟨.Problem err,
          [.GetCustomer customerID organization,
            .validateAddresses (convertAddrs ToLower cust.Addresses ++ [reqAddr])], s⟩ := by
  unfold createCustomerAddress
  rw [if_neg hc, if_neg ho]
  simp only [hget, hv]

/-! ### `updateCustomerAddress`: the duplicate-primary check -/

/-- C1: in `updateCustomerAddress`, for a request that decodes and passes
`req.validate` with type `"primary"` (the type the handler tests on line 145, that is
the one `req.validate` leaves in the request), and a customer returned by
`GetCustomer` that holds an address of type `"primary"` whose id differs from the one
being updated, the handler answers `ErrAddressTypeDuplicate`; its only call is the
lookup, so `repo.updateCustomerAddress` (and any other write) is never called and the
storage is unchanged. -/
theorem updateCustomerAddress_rejects_second_primary {σ : Type}
    (validate : updateCustomerAddressRequest → updateCustomerAddressRequest × Option error)
    (repo : CustomerRepository σ)
    (s : σ) (customerID addressId requestID organization : String)
    (decoded req : updateCustomerAddressRequest) (cust : Customer)
    (hc : customerID ≠ "") (ha : addressId ≠ "") (ho : organization ≠ "")
    (hvalid : validate decoded = (req, none)) (htype : req.Type_ = "primary")
    (hget : repo.GetCustomer s customerID organization = (some cust, none))
    (hdup : ∃ a ∈ cust.Addresses, a.Type_ = "primary" ∧ a.AddressID ≠ addressId) :
    (updateCustomerAddress validate repo s customerID addressId requestID organization
        (.ok decoded)).reply = .Problem ErrAddressTypeDuplicate ∧
    (updateCustomerAddress validate repo s customerID addressId requestID organization
        (.ok decoded)).events = [.GetCustomer customerID organization] ∧
    (∀ e ∈ (updateCustomerAddress validate repo s customerID addressId requestID organization
        (.ok decoded)).events, e.isWrite = false) ∧
    (updateCustomerAddress validate repo s customerID addressId requestID organization
        (.ok decoded)).st = s := by
  have hrun := updateCustomerAddress_conflict_run validate repo s customerID addressId requestID
    organization decoded req cust hc ha ho hvalid htype hget hdup
  rw [hrun]
  refine ⟨rfl, rfl, ?_, rfl⟩
  intro e he
  simp only [List.mem_singleton] at he
  subst he
  rfl

/-- Witness for C1: customer `c1` holds primary address `a1`; promoting `a2` to primary
is rejected and the write counter stays at `0`. -/
theorem updateCustomerAddress_rejects_second_primary_witness :
    (updateCustomerAddress specValidate
        (countingRepo (some ⟨"c1", [sampleAddress "a1" "primary", sampleAddress "a2" "secondary"]⟩,
          none))
        0 "c1" "a2" "r1" "org" (.ok (sampleUpdate "primary"))).reply
      = .Problem ErrAddressTypeDuplicate ∧
    (updateCustomerAddress specValidate
        (countingRepo (some ⟨"c1", [sampleAddress "a1" "primary", sampleAddress "a2" "secondary"]⟩,
          none))
        0 "c1" "a2" "r1" "org" (.ok (sampleUpdate "primary"))).st = 0 :=
  have h := updateCustomerAddress_rejects_second_primary specValidate
    (countingRepo (some ⟨"c1", [sampleAddress "a1" "primary", sampleAddress "a2" "secondary"]⟩,
      none))
    0 "c1" "a2" "r1" "org" (sampleUpdate "primary") (sampleUpdate "primary")
    ⟨"c1", [sampleAddress "a1" "primary", sampleAddress "a2" "secondary"]⟩
    (by decide) (by decide) (by decide) (by decide) (by decide) rfl
    ⟨sampleAddress "a1" "primary", by decide, by decide, by decide⟩
  ⟨h.1, h.2.2.2⟩

/-- C8: the duplicate-primary check excludes the address being edited and applies
only to promotions. For a valid request (non-empty identifiers, decoded body,
`req.validate` passing and leaving `req`) and a repository whose own errors differ
from `ErrAddressTypeDuplicate`, the handler answers `ErrAddressTypeDuplicate` if and
only if `req.Type`, as the handler reads it on line 145, is `"primary"` and the
customer returned by the lookup holds an address other than `addressId` of type
`"primary"`. Hence a request whose type is not `"primary"` is never rejected as a
duplicate: the handler makes no lookup and its only call is the write of `req`. And
a primary request is not rejected when the only primary addresses of the customer
carry the edited id. -/
theorem updateCustomerAddress_duplicate_iff {σ : Type}
    (validate : updateCustomerAddressRequest → updateCustomerAddressRequest × Option error)
    (repo : CustomerRepository σ)
    (s : σ) (customerID addressId requestID organization : String)
    (decoded req : updateCustomerAddressRequest)
    (hc : customerID ≠ "") (ha : addressId ≠ "") (ho : organization ≠ "")
    (hvalid : validate decoded = (req, none))
    (hgetErr : (repo.GetCustomer s customerID organization).2 ≠ some ErrAddressTypeDuplicate)
    (hupdErr : (repo.updateCustomerAddress s customerID addressId req).2
      ≠ some ErrAddressTypeDuplicate) :
    ((updateCustomerAddress validate repo s customerID addressId requestID organization
        (.ok decoded)).reply = .Problem ErrAddressTypeDuplicate ↔
      req.Type_ = "primary" ∧
      ∃ cust, repo.GetCustomer s customerID organization = (some cust, none) ∧
        ∃ a ∈ cust.Addresses, a.Type_ = "primary" ∧ a.AddressID ≠ addressId) ∧
    (req.Type_ ≠ "primary" →
      (updateCustomerAddress validate repo s customerID addressId requestID organization
        (.ok decoded)).reply ≠ .Problem ErrAddressTypeDuplicate ∧
      (updateCustomerAddress validate repo s customerID addressId requestID organization
        (.ok decoded)).events = [.updateCustomerAddress customerID addressId req]) ∧
    (∀ cust, repo.GetCustomer s customerID organization = (some cust, none) →
      (∀ a ∈ cust.Addresses, a.Type_ = "primary" → a.AddressID = addressId) →
      (updateCustomerAddress validate repo s customerID addressId requestID organization
        (.ok decoded)).reply ≠ .Problem ErrAddressTypeDuplicate) := by
  have hwrite : ∀ before : List Event,
      (updateCustomerAddressWrite repo s customerID addressId requestID organization req
        before).reply ≠ .Problem ErrAddressTypeDuplicate := by
    intro before
    unfold updateCustomerAddressWrite
    rcases hu : repo.updateCustomerAddress s customerID addressId req with ⟨s1, _ | err⟩
    · simp
    · rw [hu] at hupdErr
      simp only [Reply.Problem.injEq, ne_eq]
      intro h
      exact hupdErr (by rw [h])
  have hcommon : AddressType.Common AddressType_Primary = "primary" := rfl
  have hiff : ((updateCustomerAddress validate repo s customerID addressId requestID organization
        (.ok decoded)).reply = .Problem ErrAddressTypeDuplicate ↔
      req.Type_ = "primary" ∧
      ∃ cust, repo.GetCustomer s customerID organization = (some cust, none) ∧
        ∃ a ∈ cust.Addresses, a.Type_ = "primary" ∧ a.AddressID ≠ addressId) := by
    unfold updateCustomerAddress
    rw [if_neg (by simp [hc, ha]), if_neg ho]
    simp only [hvalid, hcommon]
    by_cases ht : req.Type_ = "primary"
    · rw [if_pos ht]
      rcases hg : repo.GetCustomer s customerID organization with ⟨_ | cust, _ | err⟩
      · simp
      · rw [hg] at hgetErr
        simp only [Reply.Problem.injEq, ht, true_and]
        constructor
        · intro h; exact absurd (by rw [h]) hgetErr
        · rintro ⟨c, hc2, _⟩; simp at hc2
      · by_cases hp : primaryConflict addressId cust.Addresses = true
        · simp only [hp, if_true, ht, true_and, true_iff]
          exact ⟨cust, rfl, (primaryConflict_iff _ _).mp hp⟩
        · simp only [hp, if_false, Bool.false_eq_true, ht, true_and]
          constructor
          · intro h; exact absurd h (hwrite _)
          · rintro ⟨c, hc2, hex⟩
            simp only [Prod.mk.injEq, Option.some.injEq, and_true] at hc2
            subst hc2
            exact absurd ((primaryConflict_iff _ _).mpr hex) hp
      · rw [hg] at hgetErr
        simp only [Reply.Problem.injEq, ht, true_and]
        constructor
        · intro h; exact absurd (by rw [h]) hgetErr
        · rintro ⟨c, hc2, _⟩; simp at hc2
    · rw [if_neg ht]
      constructor
      · intro h; exact absurd h (hwrite _)
      · rintro ⟨h, _⟩; exact absurd h ht
  refine ⟨hiff, ?_, ?_⟩
  · intro ht
    refine ⟨fun h => ht (hiff.mp h).1, ?_⟩
    unfold updateCustomerAddress
    rw [if_neg (by simp [hc, ha]), if_neg ho]
    simp only [hvalid, hcommon, if_neg ht]
    unfold updateCustomerAddressWrite
    rcases repo.updateCustomerAddress s customerID addressId req with ⟨s1, _ | err⟩ <;> rfl
  · intro cust hg hall h
    obtain ⟨_, c, hc2, a, hmem, hty, hid⟩ := hiff.mp h
    rw [hg] at hc2
    simp only [Prod.mk.injEq, Option.some.injEq, and_true] at hc2
    subst hc2
    exact hid (hall a hmem hty)

/-- Witness for C8: the body asks for type `"Primary"`, `lowerCasingValidate` leaves
`"primary"` in the request, and customer `c1` holds the primary address `a1`; the
promotion of `a2` is rejected as a duplicate. -/
theorem updateCustomerAddress_duplicate_iff_witness :
    (updateCustomerAddress lowerCasingValidate
        (countingRepo (some ⟨"c1", [sampleAddress "a1" "primary", sampleAddress "a2" "secondary"]⟩,
          none))
        0 "c1" "a2" "r1" "org" (.ok (sampleUpdate "Primary"))).reply
      = .Problem ErrAddressTypeDuplicate :=
  (updateCustomerAddress_duplicate_iff lowerCasingValidate
    (countingRepo (some ⟨"c1", [sampleAddress "a1" "primary", sampleAddress "a2" "secondary"]⟩,
      none))
    0 "c1" "a2" "r1" "org" (sampleUpdate "Primary") (sampleUpdate "primary")
    (by decide) (by decide) (by decide) (by decide) (by decide) (by decide)).1.mpr
    ⟨by decide, ⟨"c1", [sampleAddress "a1" "primary", sampleAddress "a2" "secondary"]⟩, rfl,
      sampleAddress "a1" "primary", by decide, by decide, by decide⟩

/-- The handler on the edge cases of the duplicate check, evaluated: re-saving the
sole primary address `a1` as primary goes through to the write after the lookup; a
body of type `"Primary"` that `lowerCasingValidate` lower-cases is looked up and
written as `"primary"`; a secondary request is written without a lookup. -/
theorem updateCustomerAddress_check_examples :
    (updateCustomerAddress specValidate
        (countingRepo (some ⟨"c1", [sampleAddress "a1" "primary", sampleAddress "a2" "secondary"]⟩,
          none))
        0 "c1" "a1" "r1" "org" (.ok (sampleUpdate "primary"))).events
      = [.GetCustomer "c1" "org", .updateCustomerAddress "c1" "a1" (sampleUpdate "primary")] ∧
    (updateCustomerAddress lowerCasingValidate
        (countingRepo (some ⟨"c1", [sampleAddress "a1" "primary", sampleAddress "a2" "secondary"]⟩,
          none))
        0 "c1" "a1" "r1" "org" (.ok (sampleUpdate "Primary"))).events
      = [.GetCustomer "c1" "org", .updateCustomerAddress "c1" "a1" (sampleUpdate "primary")] ∧
    (updateCustomerAddress specValidate
        (countingRepo (some ⟨"c1", [sampleAddress "a1" "primary", sampleAddress "a2" "secondary"]⟩,
          none))
        0 "c1" "a1" "r1" "org" (.ok (sampleUpdate "secondary"))).events
      = [.updateCustomerAddress "c1" "a1" (sampleUpdate "secondary")] := by
  decide

/-! ### `createCustomerAddress`: validation of the resulting set -/

/-- C2: in `createCustomerAddress`, for an existing customer and a decoded request
address, `validateAddresses` is applied once, to the candidate list made of every
existing address of the customer in stored order (its type lower-cased, its six
address fields copied) followed by the requested address last, so the list has length
`len(existing) + 1`; `repo.addCustomerAddress` is called if and only if that
validation returns no error; and when validation fails the handler reports the
validation error, performs no write and leaves the storage unchanged. -/
theorem createCustomerAddress_validates_resulting_set {σ : Type} (ToLower : String → String)
    (validateAddresses : List address → Option error) (repo : CustomerRepository σ) (s : σ)
    (customerID requestID organization : String) (reqAddr : address) (cust : Customer)
    (hc : customerID ≠ "") (ho : organization ≠ "")
    (hget : repo.GetCustomer s customerID organization = (some cust, none)) :
    convertAddrs ToLower cust.Addresses ++ [reqAddr]
      = cust.Addresses.map (fun addr => ({
          Type_ := ToLower addr.Type_
          Address1 := addr.Address1
          Address2 := addr.Address2
          City := addr.City
          State := addr.State
          PostalCode := addr.PostalCode
          Country := addr.Country } : address)) ++ [reqAddr] ∧
    (convertAddrs ToLower cust.Addresses ++ [reqAddr]).length = cust.Addresses.length + 1 ∧
    (convertAddrs ToLower cust.Addresses ++ [reqAddr]).getLast? = some reqAddr ∧
    (∀ c, Event.validateAddresses c ∈
        (createCustomerAddress ToLower validateAddresses repo s customerID requestID organization
          (.ok reqAddr)).events ↔ c = convertAddrs ToLower cust.Addresses ++ [reqAddr]) ∧
    (Event.addCustomerAddress customerID reqAddr ∈
        (createCustomerAddress ToLower validateAddresses repo s customerID requestID organization
          (.ok reqAddr)).events ↔
      validateAddresses (convertAddrs ToLower cust.Addresses ++ [reqAddr]) = none) ∧
    (∀ err, validateAddresses (convertAddrs ToLower cust.Addresses ++ [reqAddr]) = some err →
      (createCustomerAddress ToLower validateAddresses repo s customerID requestID organization
          (.ok reqAddr)).reply = .Problem err ∧
      (∀ e ∈ (createCustomerAddress ToLower validateAddresses repo s customerID requestID
          organization (.ok reqAddr)).events, e.isWrite = false) ∧
      (createCustomerAddress ToLower validateAddresses repo s customerID requestID organization
          (.ok reqAddr)).st = s) := by
  refine ⟨by rw [convertAddrs_eq_map], ?_, by simp, ?_⟩
  · rw [convertAddrs_eq_map]; simp
  unfold createCustomerAddress
  rw [if_neg hc, if_neg ho]
  simp only [hget]
  rcases hv : validateAddresses (convertAddrs ToLower cust.Addresses ++ [reqAddr])
    with _ | verr
  · rcases repo.addCustomerAddress s customerID reqAddr with ⟨s1, _ | err⟩
    · refine ⟨?_, ?_, ?_⟩
      · intro c; simp [eq_comm]
      · simp
      · intro err h; simp at h
    · refine ⟨?_, ?_, ?_⟩
      · intro c; simp [eq_comm]
      · simp
      · intro err h; simp at h
  · refine ⟨?_, ?_, ?_⟩
    · intro c; simp [eq_comm]
    · simp
    · intro err h
      simp only [Option.some.injEq] at h
      subst h
      refine ⟨rfl, ?_, rfl⟩
      intro e he
      simp only [List.mem_cons, List.mem_singleton, List.not_mem_nil, or_false] at he
      rcases he with rfl | rfl <;> rfl

/-- Witness for C2: customer `c1` with one primary address; creating a second primary
address is validated against both entries and is rejected without a write. -/
theorem createCustomerAddress_validates_resulting_set_witness :
    (createCustomerAddress asciiToLower specValidateAddresses
        (countingRepo (some ⟨"c1", [sampleAddress "a1" "primary"]⟩, none))
        0 "c1" "r1" "org" (.ok (sampleRequest "primary"))).reply
      = .Problem ⟨"DuplicatePrimaryAddress"⟩ ∧
    (createCustomerAddress asciiToLower specValidateAddresses
        (countingRepo (some ⟨"c1", [sampleAddress "a1" "primary"]⟩, none))
        0 "c1" "r1" "org" (.ok (sampleRequest "primary"))).st = 0 :=
  have h := (createCustomerAddress_validates_resulting_set asciiToLower specValidateAddresses
    (countingRepo (some ⟨"c1", [sampleAddress "a1" "primary"]⟩, none))
    0 "c1" "r1" "org" (sampleRequest "primary") ⟨"c1", [sampleAddress "a1" "primary"]⟩
    (by decide) (by decide) rfl).2.2.2.2.2 ⟨"DuplicatePrimaryAddress"⟩ (by decide)
  ⟨h.1, h.2.2⟩

/-! ### Customer lookup before the writes -/

/-- C9 (behaviour of the code): with a valid primary request and a repository whose
`GetCustomer` returns `(nil, nil)`, `updateCustomerAddress` dereferences the missing
customer and ends in a nil-pointer panic without a response, whereas
`createCustomerAddress` answers `404 Not Found` in the same situation. -/
theorem updateCustomerAddress_nil_customer_panics :
    specValidate (sampleUpdate "primary") = (sampleUpdate "primary", none) ∧
    (updateCustomerAddress specValidate (countingRepo (none, none))
        0 "c1" "a1" "r1" "org" (.ok (sampleUpdate "primary"))).reply = .nilDereference ∧
    (createCustomerAddress asciiToLower specValidateAddresses (countingRepo (none, none))
        0 "c1" "r1" "org" (.ok (sampleRequest "primary"))).reply = .WriteHeader 404 := by
  decide

/-- C10 (behaviour of the code): customer `c1` stores address `a1` with type
`"Primary"`. `createCustomerAddress` lower-cases it, presents it to validation as
`"primary"` and so rejects a new primary address; `updateCustomerAddress` compares the
stored type with `"primary"` exactly, does not answer `ErrAddressTypeDuplicate` for the
promotion of `a2`, and calls `repo.updateCustomerAddress`. -/
theorem updateCustomerAddress_case_sensitive_check :
    asciiToLower "Primary" = "primary" ∧
    convertAddrs asciiToLower [sampleAddress "a1" "Primary", sampleAddress "a2" "secondary"]
      = [{ sampleRequest "primary" with Address1 := "1 Main St" },
         { sampleRequest "secondary" with Address1 := "1 Main St" }] ∧
    (createCustomerAddress asciiToLower specValidateAddresses
        (countingRepo
          (some ⟨"c1", [sampleAddress "a1" "Primary", sampleAddress "a2" "secondary"]⟩, none))
        0 "c1" "r1" "org" (.ok (sampleRequest "primary"))).reply
      = .Problem ⟨"DuplicatePrimaryAddress"⟩ ∧
    (updateCustomerAddress specValidate
        (countingRepo
          (some ⟨"c1", [sampleAddress "a1" "Primary", sampleAddress "a2" "secondary"]⟩, none))
        0 "c1" "a2" "r1" "org" (.ok (sampleUpdate "primary"))).reply
      = .respondWithCustomer "c1" "org" "r1" ∧
    (updateCustomerAddress specValidate
        (countingRepo
          (some ⟨"c1", [sampleAddress "a1" "Primary", sampleAddress "a2" "secondary"]⟩, none))
        0 "c1" "a2" "r1" "org" (.ok (sampleUpdate "primary"))).events
      = [.GetCustomer "c1" "org", .updateCustomerAddress "c1" "a2" (sampleUpdate "primary")] := by
  decide

/-- C5 as stated fails: with a repository holding no customer at all (`GetCustomer`
would return `(nil, nil)`), `deleteCustomerAddress` and a non-primary
`updateCustomerAddress` never call `GetCustomer`, invoke the repository write and
answer success instead of not-found. -/
theorem address_write_without_lookup :
    (deleteCustomerAddress (countingRepo (none, none)) 0 "c1" "a1").events
      = [.deleteCustomerAddress "c1" "a1"] ∧
    (deleteCustomerAddress (countingRepo (none, none)) 0 "c1" "a1").reply = .WriteHeader 204 ∧
    (deleteCustomerAddress (countingRepo (none, none)) 0 "c1" "a1").st = 1 ∧
    specValidate (sampleUpdate "secondary") = (sampleUpdate "secondary", none) ∧
    (updateCustomerAddress specValidate (countingRepo (none, none))
        0 "c1" "a1" "r1" "org" (.ok (sampleUpdate "secondary"))).events
      = [.updateCustomerAddress "c1" "a1" (sampleUpdate "secondary")] ∧
    (updateCustomerAddress specValidate (countingRepo (none, none))
        0 "c1" "a1" "r1" "org" (.ok (sampleUpdate "secondary"))).reply
      = .respondWithCustomer "c1" "org" "r1" ∧
    (updateCustomerAddress specValidate (countingRepo (none, none))
        0 "c1" "a1" "r1" "org" (.ok (sampleUpdate "secondary"))).st = 1 := by
  decide

/-- C5 amended: when each handler looks the customer up and when it writes.
`createCustomerAddress` makes a repository write only after `repo.GetCustomer`, called
first for that customerID, returned a non-nil customer without error; it does call
`repo.addCustomerAddress` once that customer's candidate set passes validation; and
when `GetCustomer` returns no customer it answers `404 Not Found` with the lookup as
its only call and the storage unchanged. `updateCustomerAddress`, for a request that
`req.validate` passes and leaves as `req`: if `req.Type` is `"primary"` it writes only
after the lookup, called first, returned a non-nil customer without error, and it does
call `repo.updateCustomerAddress` with `req` after the lookup when that customer holds
no primary address under another id; if `req.Type` is anything else its only call is
`repo.updateCustomerAddress` with `req`, without a lookup. `deleteCustomerAddress`
never calls `GetCustomer`: for non-empty identifiers its only call is
`repo.deleteCustomerAddress`. -/
theorem address_writes_and_lookup {σ : Type} (ToLower : String → String)
    (validateAddresses : List address → Option error)
    (validate : updateCustomerAddressRequest → updateCustomerAddressRequest × Option error)
    (repo : CustomerRepository σ)
    (s : σ) (customerID addressId requestID organization : String)
    (body : Except error address) (ubody : Except error updateCustomerAddressRequest) :
    ((∃ e ∈ (createCustomerAddress ToLower validateAddresses repo s customerID requestID
          organization body).events, e.isWrite = true) →
      (∃ cust, repo.GetCustomer s customerID organization = (some cust, none)) ∧
      (createCustomerAddress ToLower validateAddresses repo s customerID requestID
          organization body).events.head? = some (.GetCustomer customerID organization)) ∧
    (∀ reqAddr cust, customerID ≠ "" → organization ≠ "" → body = .ok reqAddr →
      repo.GetCustomer s customerID organization = (some cust, none) →
      validateAddresses (convertAddrs ToLower cust.Addresses ++ [reqAddr]) = none →
      (createCustomerAddress ToLower validateAddresses repo s customerID requestID
          organization body).events
        = [.GetCustomer customerID organization,
           .validateAddresses (convertAddrs ToLower cust.Addresses ++ [reqAddr]),
           .addCustomerAddress customerID reqAddr]) ∧
    (customerID ≠ "" → organization ≠ "" → (∃ reqAddr, body = .ok reqAddr) →
      repo.GetCustomer s customerID organization = (none, none) →
      (createCustomerAddress ToLower validateAddresses repo s customerID requestID
          organization body).reply = .WriteHeader 404 ∧
      (createCustomerAddress ToLower validateAddresses repo s customerID requestID
          organization body).events = [.GetCustomer customerID organization] ∧
      (createCustomerAddress ToLower validateAddresses repo s customerID requestID
          organization body).st = s) ∧
    (∀ decoded req, ubody = .ok decoded → validate decoded = (req, none) →
      req.Type_ = "primary" →
      ((∃ e ∈ (updateCustomerAddress validate repo s customerID addressId requestID
          organization ubody).events, e.isWrite = true) →
        (∃ cust, repo.GetCustomer s customerID organization = (some cust, none)) ∧
        (updateCustomerAddress validate repo s customerID addressId requestID
          organization ubody).events.head? = some (.GetCustomer customerID organization)) ∧
      (∀ cust, customerID ≠ "" → addressId ≠ "" → organization ≠ "" →
        repo.GetCustomer s customerID organization = (some cust, none) →
        (∀ a ∈ cust.Addresses, a.Type_ = "primary" → a.AddressID = addressId) →
        (updateCustomerAddress validate repo s customerID addressId requestID
          organization ubody).events
          = [.GetCustomer customerID organization,
             .updateCustomerAddress customerID addressId req])) ∧
    (∀ decoded req, ubody = .ok decoded → validate decoded = (req, none) →
      req.Type_ ≠ "primary" → customerID ≠ "" → addressId ≠ "" → organization ≠ "" →
      (updateCustomerAddress validate repo s customerID addressId requestID
          organization ubody).events = [.updateCustomerAddress customerID addressId req]) ∧
    (∀ c o, Event.GetCustomer c o ∉
        (deleteCustomerAddress repo s customerID addressId).events) ∧
    (customerID ≠ "" → addressId ≠ "" →
      (deleteCustomerAddress repo s customerID addressId).events
        = [.deleteCustomerAddress customerID addressId]) := by
  have hcommon : AddressType.Common AddressType_Primary = "primary" := rfl
  refine ⟨?_, ?_, ?_, ?_, ?_, ?_, ?_⟩
  · unfold createCustomerAddress
    intro h
    split_ifs at h ⊢
    · simp at h
    · simp at h
    · rcases body with err | reqAddr
      · simp at h
      · rcases hg : repo.GetCustomer s customerID organization with ⟨_ | cust, _ | err⟩
        · simp [hg, Event.isWrite] at h
        · simp [hg, Event.isWrite] at h
        · refine ⟨⟨cust, rfl⟩, ?_⟩
          simp only
          rcases validateAddresses (convertAddrs ToLower cust.Addresses ++ [reqAddr])
            with _ | verr
          · rcases repo.addCustomerAddress s customerID reqAddr with ⟨s1, _ | err⟩ <;> rfl
          · rfl
        · simp [hg, Event.isWrite] at h
  · rintro reqAddr cust hc ho rfl hg hv
    unfold createCustomerAddress
    rw [if_neg hc, if_neg ho]
    simp only [hg, hv]
    rcases repo.addCustomerAddress s customerID reqAddr with ⟨s1, _ | err⟩ <;> rfl
  · rintro hc ho ⟨reqAddr, rfl⟩ hg
    unfold createCustomerAddress
    rw [if_neg hc, if_neg ho]
    simp only [hg, and_self]
  · rintro decoded req rfl hv ht
    constructor
    · intro h
      unfold updateCustomerAddress at h ⊢
      split_ifs at h ⊢
      · simp at h
      · simp at h
      · simp only [hv, hcommon, if_pos ht] at h ⊢
        rcases hg : repo.GetCustomer s customerID organization with ⟨_ | cust, _ | err⟩
        · simp [hg, Event.isWrite] at h
        · simp [hg, Event.isWrite] at h
        · refine ⟨⟨cust, rfl⟩, ?_⟩
          simp only
          split_ifs
          · rfl
          · unfold updateCustomerAddressWrite
            rcases repo.updateCustomerAddress s customerID addressId req
              with ⟨s1, _ | err⟩ <;> rfl
        · simp [hg, Event.isWrite] at h
    · intro cust hc ha ho hg hall
      have hno : primaryConflict addressId cust.Addresses = false := by
        rcases hp : primaryConflict addressId cust.Addresses with _ | _
        · rfl
        · obtain ⟨a, hmem, hty, hid⟩ := (primaryConflict_iff _ _).mp hp
          exact absurd (hall a hmem hty) hid
      unfold updateCustomerAddress
      rw [if_neg (by simp [hc, ha]), if_neg ho]
      simp only [hv, hcommon, if_pos ht, hg, hno, Bool.false_eq_true, if_false]
      unfold updateCustomerAddressWrite
      rcases repo.updateCustomerAddress s customerID addressId req
        with ⟨s1, _ | err⟩ <;> rfl
  · rintro decoded req rfl hv ht hc ha ho
    unfold updateCustomerAddress
    rw [if_neg (by simp [hc, ha]), if_neg ho]
    simp only [hv, hcommon, if_neg ht]
    unfold updateCustomerAddressWrite
    rcases repo.updateCustomerAddress s customerID addressId req
      with ⟨s1, _ | err⟩ <;> rfl
  · intro c o
    unfold deleteCustomerAddress
    split_ifs
    · simp
    · rcases repo.deleteCustomerAddress s customerID addressId with ⟨s1, _ | err⟩ <;> simp
  · intro hc ha
    unfold deleteCustomerAddress
    rw [if_neg (by simp [hc, ha])]
    rcases repo.deleteCustomerAddress s customerID addressId with ⟨s1, _ | err⟩ <;> rfl

/-- Witness for C5 amended: creating an address for a customer the repository does
not hold answers 404 and leaves the write counter at `0`; a secondary update of that
customer's address goes to the write without a lookup. -/
theorem address_writes_and_lookup_witness :
    ((createCustomerAddress asciiToLower specValidateAddresses (countingRepo (none, none))
        0 "c1" "r1" "org" (.ok (sampleRequest "primary"))).reply = .WriteHeader 404 ∧
    (createCustomerAddress asciiToLower specValidateAddresses (countingRepo (none, none))
        0 "c1" "r1" "org" (.ok (sampleRequest "primary"))).st = 0) ∧
    (updateCustomerAddress specValidate (countingRepo (none, none))
        0 "c1" "a1" "r1" "org" (.ok (sampleUpdate "secondary"))).events
      = [.updateCustomerAddress "c1" "a1" (sampleUpdate "secondary")] :=
  have h := address_writes_and_lookup asciiToLower specValidateAddresses specValidate
    (countingRepo (none, none)) 0 "c1" "a1" "r1" "org" (.ok (sampleRequest "primary"))
    (.ok (sampleUpdate "secondary"))
  have h1 := h.2.2.1 (by decide) (by decide) ⟨_, rfl⟩ rfl
  ⟨⟨h1.1, h1.2.2⟩,
    h.2.2.2.2.1 (sampleUpdate "secondary") (sampleUpdate "secondary") rfl (by decide)
      (by decide) (by decide) (by decide) (by decide)⟩

/-! ### The repository of the specification under the handlers -/

/-- Reading the addresses of a customer after a record was replaced. -/
theorem Store.addressesOf_put (st : Store) (customerID c : String) (r : CustomerRecord) :
    (st.put customerID r).addressesOf c
      = if c = customerID then r.addresses else st.addressesOf c := by
  unfold Store.addressesOf Store.put
  by_cases h : c = customerID <;> simp [h]

/-- Lower-casing keeps every exact `"primary"`, so the converted list has at least as
many primary entries as the stored one. -/
theorem countP_le_countPrimary_convertAddrs (ToLower : String → String)
    (hlow : ToLower "primary" = "primary") (l : List Address) :
    l.countP (fun a => a.Type_ = "primary") ≤ countPrimary (convertAddrs ToLower l) := by
  rw [convertAddrs_eq_map]
  unfold countPrimary
  rw [List.countP_map]
  apply List.countP_mono_left
  intro a _ ha
  simp only [decide_eq_true_eq] at ha
  simp [Function.comp, ha, hlow]

/-- What `createCustomerAddress` leaves in storage: either nothing changed, or the
customer existed, the candidate set passed validation, and the requested address was
appended under a generated id. -/
theorem createCustomerAddress_memRepo_st (ToLower : String → String)
    (validateAddresses : List address → Option error) (genID : List Address → String)
    (st : Store) (customerID requestID organization : String) (body : Except error address) :
    (createCustomerAddress ToLower validateAddresses (memRepo genID) st customerID requestID
        organization body).st = st ∨
    ∃ r a, st customerID = some r ∧
      validateAddresses (convertAddrs ToLower r.addresses ++ [a]) = none ∧
      (createCustomerAddress ToLower validateAddresses (memRepo genID) st customerID requestID
        organization body).st
        = st.put customerID
            { r with addresses := r.addresses ++ [newAddress (genID r.addresses) a] } := by
  unfold createCustomerAddress
  split_ifs
  · exact Or.inl rfl
  · exact Or.inl rfl
  · rcases body with err | reqAddr
    · exact Or.inl rfl
    · rcases hr : st customerID with _ | r
      · left
        simp [memRepo, hr]
      · by_cases horg : r.organization = organization
        · rcases hv : validateAddresses (convertAddrs ToLower r.addresses ++ [reqAddr])
            with _ | verr
          · right
            refine ⟨r, reqAddr, rfl, hv, ?_⟩
            simp [memRepo, hr, horg, hv]
          · left
            simp [memRepo, hr, horg, hv]
        · left
          simp [memRepo, hr, horg]

/-- What `updateCustomerAddress` leaves in storage: either nothing changed, or the
customer existed, a promotion to primary found no other primary address, and the
address with the given id was overwritten as requested. -/
theorem updateCustomerAddress_memRepo_st
    (validate : updateCustomerAddressRequest → updateCustomerAddressRequest × Option error) (genID : List Address → String)
    (st : Store) (customerID addressId requestID organization : String)
    (body : Except error updateCustomerAddressRequest) :
    (updateCustomerAddress validate (memRepo genID) st customerID addressId requestID
        organization body).st = st ∨
    ∃ r req, st customerID = some r ∧
      (req.Type_ = "primary" → primaryConflict addressId r.addresses = false) ∧
      (updateCustomerAddress validate (memRepo genID) st customerID addressId requestID
        organization body).st
        = st.put customerID
            ⟨r.organization, r.addresses.map
              (fun a => if a.AddressID = addressId then applyUpdate req a else a)⟩ := by
  have hcommon : AddressType.Common AddressType_Primary = "primary" := rfl
  have hwrite : ∀ (req : updateCustomerAddressRequest) (before : List Event) (r : CustomerRecord),
      st customerID = some r →
      (updateCustomerAddressWrite (memRepo genID) st customerID addressId requestID organization
        req before).st = st ∨
      (updateCustomerAddressWrite (memRepo genID) st customerID addressId requestID organization
        req before).st = st.put customerID
            ⟨r.organization, r.addresses.map
              (fun a => if a.AddressID = addressId then applyUpdate req a else a)⟩ := by
    intro req before r hr
    unfold updateCustomerAddressWrite
    by_cases hany : (r.addresses.any (fun a => a.AddressID = addressId)) = true
    · right
      simp only [memRepo, hr, hany, if_true]
    · left
      simp only [memRepo, hr, hany]
      rfl
  unfold updateCustomerAddress
  split_ifs
  · exact Or.inl rfl
  · exact Or.inl rfl
  · rcases body with err | decoded
    · exact Or.inl rfl
    · rcases hv : validate decoded with ⟨req, _ | verr⟩
      · simp only [hv]
        rw [hcommon]
        rcases hr : st customerID with _ | r
        · left
          by_cases ht : req.Type_ = "primary"
          · simp [memRepo, hr, ht]
          · simp [memRepo, hr, ht, updateCustomerAddressWrite]
        · by_cases ht : req.Type_ = "primary"
          · rw [if_pos ht]
            by_cases horg : r.organization = organization
            · by_cases hp : primaryConflict addressId r.addresses = true
              · left
                simp [memRepo, hr, horg, hp]
              · have hg : (memRepo genID).GetCustomer st customerID organization
                    = (some ⟨customerID, r.addresses⟩, none) := by
                  simp [memRepo, hr, horg]
                simp only [hg, hp, if_false, Bool.false_eq_true]
                rcases hwrite req [.GetCustomer customerID organization] r hr with h | h
                · exact Or.inl h
                · exact Or.inr ⟨r, req, rfl, fun _ => by simpa using hp, h⟩
            · left
              simp [memRepo, hr, horg]
          · rw [if_neg ht]
            rcases hwrite req [] r hr with h | h
            · exact Or.inl h
            · exact Or.inr ⟨r, req, rfl, fun h2 => absurd h2 ht, h⟩
      · left
        simp only [hv]

/-- An update keeps the address ids. -/
theorem map_applyUpdate_ids (req : updateCustomerAddressRequest) (addressId : String)
    (l : List Address) :
    (l.map (fun a => if a.AddressID = addressId then applyUpdate req a else a)).map
        (fun a => a.AddressID) = l.map (fun a => a.AddressID) := by
  rw [List.map_map]
  apply List.map_congr_left
  intro a _
  by_cases h : a.AddressID = addressId <;> simp [h, applyUpdate]

/-- With pairwise distinct ids, an update that the handler lets through leaves at
most one primary address: a promotion found no primary address under another id, and
any other update creates no primary address. -/
theorem countP_primary_update_le_one (req : updateCustomerAddressRequest) (addressId : String)
    (l : List Address) (hnodup : (l.map (fun a => a.AddressID)).Nodup)
    (hcheck : req.Type_ = "primary" → primaryConflict addressId l = false)
    (hone : l.countP (fun a => a.Type_ = "primary") ≤ 1) :
    (l.map (fun a => if a.AddressID = addressId then applyUpdate req a else a)).countP
        (fun a => a.Type_ = "primary") ≤ 1 := by
  by_cases ht : req.Type_ = "primary"
  · have hno : ∀ a ∈ l, a.Type_ = "primary" → a.AddressID = addressId := by
      intro a ha hp
      by_contra hne
      have := (primaryConflict_iff addressId l).mpr ⟨a, ha, hp, hne⟩
      rw [hcheck ht] at this
      exact Bool.false_ne_true this
    clear hcheck hone
    induction l with
    | nil => simp
    | cons x xs ih =>
      rw [List.map_cons, List.nodup_cons] at hnodup
      have hxs : ∀ a ∈ xs, a.Type_ = "primary" → a.AddressID = addressId :=
        fun a ha => hno a (List.mem_cons_of_mem _ ha)
      rw [List.map_cons, List.countP_cons]
      by_cases hx : x.AddressID = addressId
      · have hzero : (xs.map (fun a => if a.AddressID = addressId then applyUpdate req a
            else a)).countP (fun a => a.Type_ = "primary") = 0 := by
          rw [List.countP_eq_zero]
          intro b hb
          rcases List.mem_map.mp hb with ⟨a, ha, rfl⟩
          have hne : a.AddressID ≠ addressId := by
            intro h
            apply hnodup.1
            rw [hx, ← h]
            exact List.mem_map.mpr ⟨a, ha, rfl⟩
          simp only [if_neg hne, decide_eq_true_eq]
          intro hp
          exact hne (hxs a ha hp)
        rw [hzero]
        split_ifs <;> simp
      · have hxp : x.Type_ ≠ "primary" := fun hp => hx (hno x (List.mem_cons_self _ _) hp)
        have := ih hnodup.2 hxs
        simp only [if_neg hx, hxp, decide_False, Bool.false_eq_true, if_false, add_zero]
        exact this
  · refine le_trans ?_ hone
    rw [List.countP_map]
    apply List.countP_mono_left
    intro a _ ha
    simp only [Function.comp, decide_eq_true_eq] at ha ⊢
    by_cases h : a.AddressID = addressId
    · rw [if_pos h] at ha
      exact absurd ha ht
    · rw [if_neg h] at ha
      exact ha

/-- One request keeps, for every customer, the ids pairwise distinct and the number of
primary addresses at most one. -/
theorem serve_preserves (ToLower : String → String)
    (validateAddresses : List address → Option error)
    (validate : updateCustomerAddressRequest → updateCustomerAddressRequest × Option error) (genID : List Address → String)
    (hlow : ToLower "primary" = "primary")
    (hval : ∀ c, 2 ≤ countPrimary c → validateAddresses c ≠ none)
    (hgen : ∀ l, genID l ∉ l.map (fun a => a.AddressID))
    (st : Store) (c : String)
    (hnodup : ((st.addressesOf c).map (fun a => a.AddressID)).Nodup)
    (hone : st.primaryCount c ≤ 1) (req : AddressRequest) :
    (((serve ToLower validateAddresses validate genID st req).st.addressesOf c).map
        (fun a => a.AddressID)).Nodup ∧
    (serve ToLower validateAddresses validate genID st req).st.primaryCount c ≤ 1 := by
  rcases req with ⟨customerID, requestID, organization, body⟩ |
    ⟨customerID, addressId, requestID, organization, body⟩
  · unfold serve
    rcases createCustomerAddress_memRepo_st ToLower validateAddresses genID st customerID
      requestID organization body with h | ⟨r, a, hr, hv, h⟩
    · rw [h]; exact ⟨hnodup, hone⟩
    · rw [h]
      unfold Store.primaryCount
      rw [Store.addressesOf_put]
      by_cases hc : c = customerID
      · subst hc
        have haddr : st.addressesOf c = r.addresses := by
          unfold Store.addressesOf; rw [hr]
        rw [haddr] at hnodup
        unfold Store.primaryCount at hone
        rw [haddr] at hone
        simp only [if_true]
        constructor
        · rw [List.map_append, List.nodup_append]
          refine ⟨hnodup, by simp, ?_⟩
          intro x hx hx2
          simp only [List.map_cons, List.map_nil, List.mem_singleton] at hx2
          subst hx2
          exact hgen r.addresses hx
        · have hlt : ¬ 2 ≤ countPrimary (convertAddrs ToLower r.addresses ++ [a]) :=
            fun h2 => hval _ h2 hv
          have hge := countP_le_countPrimary_convertAddrs ToLower hlow r.addresses
          unfold countPrimary at hlt hge
          rw [List.countP_append] at hlt ⊢
          have hnew : [newAddress (genID r.addresses) a].countP (fun a => a.Type_ = "primary")
              = [a].countP (fun a => a.Type_ = "primary") := by
            simp [List.countP_cons, newAddress]
          rw [hnew]
          omega
      · rw [if_neg hc]
        exact ⟨hnodup, hone⟩
  · unfold serve
    rcases updateCustomerAddress_memRepo_st validate genID st customerID addressId
      requestID organization body with h | ⟨r, req, hr, hcheck, h⟩
    · rw [h]; exact ⟨hnodup, hone⟩
    · rw [h]
      unfold Store.primaryCount
      rw [Store.addressesOf_put]
      by_cases hc : c = customerID
      · subst hc
        have haddr : st.addressesOf c = r.addresses := by
          unfold Store.addressesOf; rw [hr]
        rw [haddr] at hnodup
        unfold Store.primaryCount at hone
        rw [haddr] at hone
        simp only [if_true]
        exact ⟨by rw [map_applyUpdate_ids]; exact hnodup,
          countP_primary_update_le_one req addressId r.addresses hnodup hcheck hone⟩
      · rw [if_neg hc]
        exact ⟨hnodup, hone⟩

/-- Any finite sequence of requests keeps, for every customer, the ids pairwise
distinct and the number of primary addresses at most one. -/
theorem serveAll_preserves (ToLower : String → String)
    (validateAddresses : List address → Option error)
    (validate : updateCustomerAddressRequest → updateCustomerAddressRequest × Option error) (genID : List Address → String)
    (hlow : ToLower "primary" = "primary")
    (hval : ∀ c, 2 ≤ countPrimary c → validateAddresses c ≠ none)
    (hgen : ∀ l, genID l ∉ l.map (fun a => a.AddressID))
    (c : String) (reqs : List AddressRequest) (st : Store)
    (hnodup : ((st.addressesOf c).map (fun a => a.AddressID)).Nodup)
    (hone : st.primaryCount c ≤ 1) :
    (((serveAll ToLower validateAddresses validate genID st reqs).addressesOf c).map
        (fun a => a.AddressID)).Nodup ∧
    (serveAll ToLower validateAddresses validate genID st reqs).primaryCount c ≤ 1 := by
  induction reqs generalizing st with
  | nil => exact ⟨hnodup, hone⟩
  | cons req rest ih =>
    have hstep := serve_preserves ToLower validateAddresses validate genID hlow hval hgen
      st c hnodup hone req
    exact ih _ hstep.1 hstep.2

/-- A create of a primary address for a visible customer that already holds a primary
address is rejected with the validation error and changes nothing. -/
theorem createCustomerAddress_memRepo_second_primary (ToLower : String → String)
    (validateAddresses : List address → Option error) (genID : List Address → String)
    (hlow : ToLower "primary" = "primary")
    (hval : ∀ c, 2 ≤ countPrimary c → validateAddresses c ≠ none)
    (st : Store) (customerID requestID organization : String) (a : address) (r : CustomerRecord)
    (hc : customerID ≠ "") (ho : organization ≠ "") (ha : a.Type_ = "primary")
    (hr : st customerID = some r) (horg : r.organization = organization)
    (hprim : ∃ x ∈ r.addresses, x.Type_ = "primary") :
    (∃ err, (createCustomerAddress ToLower validateAddresses (memRepo genID) st customerID
        requestID organization (.ok a)).reply = .Problem err) ∧
    (createCustomerAddress ToLower validateAddresses (memRepo genID) st customerID
        requestID organization (.ok a)).st = st := by
  have hg : (memRepo genID).GetCustomer st customerID organization
      = (some ⟨customerID, r.addresses⟩, none) := by
    simp [memRepo, hr, horg]
  have hpos : 0 < r.addresses.countP (fun a => a.Type_ = "primary") := by
    rw [List.countP_pos_iff]
    obtain ⟨x, hx, hp⟩ := hprim
    exact ⟨x, hx, by simpa using hp⟩
  have hge := countP_le_countPrimary_convertAddrs ToLower hlow r.addresses
  have htwo : 2 ≤ countPrimary (convertAddrs ToLower r.addresses ++ [a]) := by
    unfold countPrimary at hge ⊢
    rw [List.countP_append]
    have : [a].countP (fun a => a.Type_ = "primary") = 1 := by
      simp [List.countP_cons, ha]
    omega
  rcases hv : validateAddresses (convertAddrs ToLower r.addresses ++ [a]) with _ | verr
  · exact absurd hv (hval _ htwo)
  · rw [createCustomerAddress_invalid_run ToLower validateAddresses (memRepo genID) st
      customerID requestID organization a ⟨customerID, r.addresses⟩ verr hc ho hg hv]
    exact ⟨⟨verr, rfl⟩, rfl⟩

/-- An update whose type, as `validate` leaves it, is primary, for a visible
customer that holds a primary address under another id, is rejected and changes
nothing. -/
theorem updateCustomerAddress_memRepo_second_primary
    (validate : updateCustomerAddressRequest → updateCustomerAddressRequest × Option error)
    (genID : List Address → String)
    (st : Store) (customerID addressId requestID organization : String)
    (decoded : updateCustomerAddressRequest) (r : CustomerRecord)
    (hc : customerID ≠ "") (ha : addressId ≠ "") (ho : organization ≠ "")
    (ht : (validate decoded).1.Type_ = "primary")
    (hr : st customerID = some r) (horg : r.organization = organization)
    (hprim : ∃ x ∈ r.addresses, x.Type_ = "primary" ∧ x.AddressID ≠ addressId) :
    (∃ err, (updateCustomerAddress validate (memRepo genID) st customerID addressId
        requestID organization (.ok decoded)).reply = .Problem err) ∧
    (updateCustomerAddress validate (memRepo genID) st customerID addressId
        requestID organization (.ok decoded)).st = st := by
  have hg : (memRepo genID).GetCustomer st customerID organization
      = (some ⟨customerID, r.addresses⟩, none) := by
    simp [memRepo, hr, horg]
  rcases hv : validate decoded with ⟨req, _ | verr⟩
  · rw [hv] at ht
    rw [updateCustomerAddress_conflict_run validate (memRepo genID) st
      customerID addressId requestID organization decoded req ⟨customerID, r.addresses⟩
      hc ha ho hv ht hg hprim]
    exact ⟨⟨_, rfl⟩, rfl⟩
  · unfold updateCustomerAddress
    rw [if_neg (by simp [hc, ha]), if_neg ho]
    simp [hv]

/-- The example id generator never returns a stored id. -/
theorem freshID_fresh (l : List Address) : freshID l ∉ l.map (fun a => a.AddressID) := by
  intro h
  rcases List.mem_map.mp h with ⟨a, ha, hid⟩
  have hlen : (freshID l).length = (l.map (fun a => a.AddressID.length)).sum + 1 := by
    unfold freshID
    show (List.replicate _ 'x').length = _
    rw [List.length_replicate]
  have hle : ∀ (l : List Address), a ∈ l →
      a.AddressID.length ≤ (l.map (fun a => a.AddressID.length)).sum := by
    intro l
    induction l with
    | nil => intro h; simp at h
    | cons x xs ih =>
      intro hmem
      rw [List.map_cons, List.sum_cons]
      rcases List.mem_cons.mp hmem with rfl | hmem
      · omega
      · have := ih hmem
        omega
  have := hle l ha
  rw [hid, hlen] at this
  omega

/-- The validation of the specification rejects every candidate set with two or more
primary entries. -/
theorem specValidateAddresses_rejects_two_primary (c : List address)
    (h : 2 ≤ countPrimary c) : specValidateAddresses c ≠ none := by
  unfold specValidateAddresses
  rw [if_pos h]
  simp

/-- C3: at-most-one-primary is an invariant of the address handlers. Over the
repository of the specification (requests are either rejected or committed as
requested, ids are generated fresh on insert), with `validateAddresses` rejecting every
candidate set that contains two or more primary entries: starting from a customer
whose address ids are pairwise distinct and who has at most one address of type
`"primary"`, after any finite sequence of `createCustomerAddress` and
`updateCustomerAddress` requests the customer still has at most one address of type
`"primary"`; and in the state reached, a create of a primary address when the customer
already holds one, or an update to primary (the type `req.validate` leaves in the
request) when the customer holds a primary address under another id, is rejected with
an error reply and leaves the storage unchanged. -/
theorem at_most_one_primary_invariant (ToLower : String → String)
    (validateAddresses : List address → Option error)
    (validate : updateCustomerAddressRequest → updateCustomerAddressRequest × Option error) (genID : List Address → String)
    (hlow : ToLower "primary" = "primary")
    (hval : ∀ c, 2 ≤ countPrimary c → validateAddresses c ≠ none)
    (hgen : ∀ l, genID l ∉ l.map (fun a => a.AddressID))
    (st : Store) (c : String)
    (hnodup : ((st.addressesOf c).map (fun a => a.AddressID)).Nodup)
    (hone : st.primaryCount c ≤ 1) (reqs : List AddressRequest) :
    (serveAll ToLower validateAddresses validate genID st reqs).primaryCount c ≤ 1 ∧
    (∀ requestID organization a r, c ≠ "" → organization ≠ "" → a.Type_ = "primary" →
      serveAll ToLower validateAddresses validate genID st reqs c = some r →
      r.organization = organization → (∃ x ∈ r.addresses, x.Type_ = "primary") →
      (∃ err, (serve ToLower validateAddresses validate genID
          (serveAll ToLower validateAddresses validate genID st reqs)
          (.create c requestID organization (.ok a))).reply = .Problem err) ∧
      (serve ToLower validateAddresses validate genID
          (serveAll ToLower validateAddresses validate genID st reqs)
          (.create c requestID organization (.ok a))).st
        = serveAll ToLower validateAddresses validate genID st reqs) ∧
    (∀ addressId requestID organization req r, c ≠ "" → addressId ≠ "" → organization ≠ "" →
      (validate req).1.Type_ = "primary" →
      serveAll ToLower validateAddresses validate genID st reqs c = some r →
      r.organization = organization →
      (∃ x ∈ r.addresses, x.Type_ = "primary" ∧ x.AddressID ≠ addressId) →
      (∃ err, (serve ToLower validateAddresses validate genID
          (serveAll ToLower validateAddresses validate genID st reqs)
          (.update c addressId requestID organization (.ok req))).reply = .Problem err) ∧
      (serve ToLower validateAddresses validate genID
          (serveAll ToLower validateAddresses validate genID st reqs)
          (.update c addressId requestID organization (.ok req))).st
        = serveAll ToLower validateAddresses validate genID st reqs) := by
  refine ⟨(serveAll_preserves ToLower validateAddresses validate genID hlow hval hgen c reqs st
    hnodup hone).2, ?_, ?_⟩
  · intro requestID organization a r hc ho ha hr horg hprim
    exact createCustomerAddress_memRepo_second_primary ToLower validateAddresses genID hlow hval
      _ c requestID organization a r hc ho ha hr horg hprim
  · intro addressId requestID organization req r hc ha ho ht hr horg hprim
    exact updateCustomerAddress_memRepo_second_primary validate genID
      _ c addressId requestID organization req r hc ha ho ht hr horg hprim

/-- Witness for C3, the scenario of spec §8: customer `c1` has no addresses; a
secondary and then a primary address are inserted, a further primary insert and a
promotion of the secondary address are attempted. At most one primary address
results. -/
theorem at_most_one_primary_invariant_witness :
    (serveAll asciiToLower specValidateAddresses specValidate freshID (sampleStore [])
      [.create "c1" "r1" "org" (.ok (sampleRequest "secondary")),
       .create "c1" "r2" "org" (.ok (sampleRequest "primary")),
       .create "c1" "r3" "org" (.ok (sampleRequest "primary")),
       .update "c1" "x" "r4" "org" (.ok (sampleUpdate "primary"))]).primaryCount "c1" ≤ 1 :=
  (at_most_one_primary_invariant asciiToLower specValidateAddresses specValidate freshID
    (by decide) specValidateAddresses_rejects_two_primary freshID_fresh
    (sampleStore []) "c1" (by decide) (by decide)
    [.create "c1" "r1" "org" (.ok (sampleRequest "secondary")),
     .create "c1" "r2" "org" (.ok (sampleRequest "primary")),
     .create "c1" "r3" "org" (.ok (sampleRequest "primary")),
     .update "c1" "x" "r4" "org" (.ok (sampleUpdate "primary"))]).1

/-- The scenario of spec §8 evaluated: after the four requests the customer holds
exactly the two addresses inserted first, the third insert and the promotion having
been rejected. -/
theorem scenario_two_addresses :
    ((serveAll asciiToLower specValidateAddresses specValidate freshID (sampleStore [])
      [.create "c1" "r1" "org" (.ok (sampleRequest "secondary")),
       .create "c1" "r2" "org" (.ok (sampleRequest "primary")),
       .create "c1" "r3" "org" (.ok (sampleRequest "primary")),
       .update "c1" "x" "r4" "org" (.ok (sampleUpdate "primary"))]).addressesOf "c1").map
        (fun a => (a.AddressID, a.Type_))
      = [("x", "secondary"), ("xx", "primary")] := by
  decide

/-! ### `deleteCustomerAddress` -/

/-- C6: for non-empty customerID and addressID, `deleteCustomerAddress` makes a
single call, `repo.deleteCustomerAddress`, without any existence check, and answers
`204 No Content` exactly when that call returns no error. Over the repository of the
specification, whose delete is idempotent, deleting an address id that is not in the
customer's address set answers 204 and leaves every address set unchanged, and
repeating a delete answers 204 both times, the second leaving every address set as the
first left it. -/
theorem deleteCustomerAddress_idempotent {σ : Type} (repo : CustomerRepository σ) (s : σ)
    (genID : List Address → String) (st : Store) (customerID addressId : String)
    (hc : customerID ≠ "") (ha : addressId ≠ "") :
    ((deleteCustomerAddress repo s customerID addressId).reply = .WriteHeader 204 ↔
      (repo.deleteCustomerAddress s customerID addressId).2 = none) ∧
    (deleteCustomerAddress repo s customerID addressId).events
      = [.deleteCustomerAddress customerID addressId] ∧
    ((∀ a ∈ st.addressesOf customerID, a.AddressID ≠ addressId) →
      (deleteCustomerAddress (memRepo genID) st customerID addressId).reply
        = .WriteHeader 204 ∧
      ∀ c, (deleteCustomerAddress (memRepo genID) st customerID addressId).st.addressesOf c
        = st.addressesOf c) ∧
    (deleteCustomerAddress (memRepo genID) st customerID addressId).reply = .WriteHeader 204 ∧
    (deleteCustomerAddress (memRepo genID)
        (deleteCustomerAddress (memRepo genID) st customerID addressId).st
        customerID addressId).reply = .WriteHeader 204 ∧
    (∀ c, (deleteCustomerAddress (memRepo genID)
        (deleteCustomerAddress (memRepo genID) st customerID addressId).st
        customerID addressId).st.addressesOf c
      = (deleteCustomerAddress (memRepo genID) st customerID addressId).st.addressesOf c) := by
  have hne : ¬ (customerID = "" ∨ addressId = "") := by simp [hc, ha]
  have hreply : ∀ st : Store,
      (deleteCustomerAddress (memRepo genID) st customerID addressId).reply
        = .WriteHeader 204 := by
    intro st
    unfold deleteCustomerAddress
    rw [if_neg hne]
    rcases hr : st customerID with _ | r <;> simp [memRepo, hr]
  have hst : ∀ (st : Store) (c : String),
      (deleteCustomerAddress (memRepo genID) st customerID addressId).st.addressesOf c
        = if c = customerID then
            (st.addressesOf customerID).filter (fun a => a.AddressID ≠ addressId)
          else st.addressesOf c := by
    intro st c
    unfold deleteCustomerAddress
    rw [if_neg hne]
    rcases hr : st customerID with _ | r
    · by_cases hcc : c = customerID
      · subst hcc
        simp [memRepo, hr, Store.addressesOf]
      · simp [memRepo, hr, hcc]
    · by_cases hcc : c = customerID
      · subst hcc
        simp [memRepo, hr, Store.addressesOf, Store.put]
      · simp [memRepo, hr, hcc, Store.addressesOf, Store.put]
  refine ⟨?_, ?_, ?_, hreply st, hreply _, ?_⟩
  · unfold deleteCustomerAddress
    rw [if_neg hne]
    rcases repo.deleteCustomerAddress s customerID addressId with ⟨s1, _ | err⟩ <;> simp
  · unfold deleteCustomerAddress
    rw [if_neg hne]
    rcases repo.deleteCustomerAddress s customerID addressId with ⟨s1, _ | err⟩ <;> rfl
  · intro hnot
    refine ⟨hreply st, ?_⟩
    intro c
    rw [hst]
    by_cases hcc : c = customerID
    · subst hcc
      rw [if_pos rfl, List.filter_eq_self]
      intro a hmem
      simpa using hnot a hmem
    · rw [if_neg hcc]
  · intro c
    rw [hst _ c]
    by_cases hcc : c = customerID
    · subst hcc
      rw [if_pos rfl, hst st c, if_pos rfl, List.filter_filter]
      simp
    · rw [if_neg hcc]

/-- Witness for C6: customer `c1` holds address `a1`; deleting the unknown id `zz`
answers 204 and the address set is as before. -/
theorem deleteCustomerAddress_idempotent_witness :
    (deleteCustomerAddress (memRepo freshID) (sampleStore [sampleAddress "a1" "primary"])
        "c1" "zz").reply = .WriteHeader 204 ∧
    (deleteCustomerAddress (memRepo freshID) (sampleStore [sampleAddress "a1" "primary"])
        "c1" "zz").st.addressesOf "c1" = [sampleAddress "a1" "primary"] :=
  have h := (deleteCustomerAddress_idempotent (memRepo freshID)
    (sampleStore [sampleAddress "a1" "primary"]) freshID
    (sampleStore [sampleAddress "a1" "primary"]) "c1" "zz" (by decide) (by decide)).2.2.1
    (by decide)
  ⟨h.1, h.2 "c1"⟩

/-! ### The disclaimer catalog -/

/-- The scenario of spec §8 for the catalog: with a known document, inserting
"terms and conditions" returns a disclaimer with the generated id and the given text,
and every customer then sees it, unaccepted; the same insert with an empty
`documentID` is rejected and leaves the catalog empty. -/
theorem insertDisclaimer_scenario :
    (insertDisclaimer (fun d => d = "doc1") "d1" ⟨[], []⟩ "terms and conditions" "doc1").1
      = (some ⟨"d1", "terms and conditions", "doc1"⟩, none) ∧
    getCustomerDisclaimers
      (insertDisclaimer (fun d => d = "doc1") "d1" ⟨[], []⟩ "terms and conditions" "doc1").2
      "c1" = [(⟨"d1", "terms and conditions", "doc1"⟩, false)] ∧
    (insertDisclaimer (fun d => d = "doc1") "d1" ⟨[], []⟩ "terms and conditions" "").1
      = (none, some ⟨"ValidationError"⟩) ∧
    getCustomerDisclaimers
      (insertDisclaimer (fun d => d = "doc1") "d1" ⟨[], []⟩ "terms and conditions" "").2
      "c1" = [] := by
  decide

end Customers
